import Mathlib

/-!
# Verification of the grinder TLS result ingestion and aggregation pipeline

Shallow embedding of `grinder/tlsparser.py` (class `TlsParser`): the report
decoder `_parse_attacks`, the vulnerability resolver `_search_vulnerabilities`,
the ingestion driver `load_tls_scan_results`, the frequency aggregator
`count_unique_entities`, and the serializers `save_results_csv` /
`save_unique_groupped_results_csv` / `save_results_json`.

Python dictionaries are modelled as insertion-ordered association lists
(`List (String × α)`); Python `set` iteration order, which CPython leaves
unspecified, is determinized as first-occurrence order (`firstDedup`).
-/

set_option maxHeartbeats 1000000
set_option synthInstance.maxSize 1024

namespace Grinder

/-! ## Association-list model of Python dict -/

/-- Python `d.get(k)`: first binding of `k`, if any. -/
def lookupA {α : Type} (l : List (String × α)) (k : String) : Option α :=
  (l.find? (fun p => p.1 == k)).map (fun p => p.2)

/-- Python `d[k] = v` for a key already present: replace in place (dict update of an
existing key keeps its position). -/
def updateA {α : Type} (l : List (String × α)) (k : String) (v : α) : List (String × α) :=
  l.map (fun p => if p.1 == k then (k, v) else p)

/-- Deduplication keeping the first occurrence, skipping elements already in
`seen`. -/
def firstDedupAux {α : Type} [DecidableEq α] (seen : List α) : List α → List α
  | [] => []
  | x :: xs =>
    if x ∈ seen then firstDedupAux seen xs
    else x :: firstDedupAux (x :: seen) xs

/-- Deduplication keeping the first occurrence of each element: the iteration
order of a Python `dict`/`Counter` built by successive inserts, and our
determinization of `list(set(…))`. -/
def firstDedup {α : Type} [DecidableEq α] (l : List α) : List α :=
  firstDedupAux [] l

/-- Python `Counter(l).items()`: distinct elements in first-occurrence order, each
with its multiplicity in `l`. -/
def countOcc {α : Type} [DecidableEq α] (l : List α) : List (α × Nat) :=
  (firstDedup l).map (fun x => (x, l.count x))

/-- Insert into a list sorted descending by the `Nat` component, before the
first element of smaller-or-equal count (so earlier-inserted elements of equal
count stay first: stability of Python `sorted(..., reverse=True)`). -/
def insDesc {α : Type} (x : α × Nat) : List (α × Nat) → List (α × Nat)
  | [] => [x]
  | y :: ys => if y.2 ≤ x.2 then x :: y :: ys else y :: insDesc x ys

/-- Stable sort, descending by the `Nat` component: model of
`sorted(counter.items(), key=lambda x: x[1], reverse=True)`. -/
def sortDesc {α : Type} : List (α × Nat) → List (α × Nat)
  | [] => []
  | x :: xs => insDesc x (sortDesc xs)

/-- Map a fallible function over a list, failing as a whole on the first
failure: a Python loop that may raise mid-iteration. -/
def optMap {α β : Type} (f : α → Option β) : List α → Option (List β)
  | [] => some []
  | x :: xs =>
    match f x, optMap f xs with
    | some y, some ys => some (y :: ys)
    | _, _ => none

/-- Python `needle in hay` substring test. -/
def containsSub (needle : List Char) (hay : List Char) : Bool :=
  match hay with
  | [] => needle.isEmpty
  | _ :: rest => needle.isPrefixOf hay || containsSub needle rest

/-! ## A small backtracking regex engine

Just enough of Python `re` for the two patterns the source uses:
literal characters, `.` (any char except newline) and greedy `p+`
character-class repetition.  `matchAtoms` enumerates candidate matches in
exactly the backtracking order of the `re` engine (greedy quantifier:
longest first); `searchPat` tries start positions left to right and keeps
the first match, which is the match `re.findall(...)[0]` is built from. -/

inductive RAtom : Type
  | rplus (p : Char → Bool)
  | rdot
  | rchr (c : Char)

/-- All ways `p+` can consume a nonempty prefix, greedy (longest) first. -/
def plusSplits (p : Char → Bool) (s : List Char) : List (List Char × List Char) :=
  let run := s.takeWhile p
  let rest := s.dropWhile p
  (List.range run.length).map (fun i =>
    (run.take (run.length - i), run.drop (run.length - i) ++ rest))

/-- All matches of an atom sequence at the start of `s`, in backtracking
order; each result lists the substring consumed by every atom, plus the
rest of the input. -/
def matchAtoms : List RAtom → List Char → List (List (List Char) × List Char)
  | [], s => [([], s)]
  | RAtom.rplus p :: as, s =>
    (plusSplits p s).flatMap (fun pr =>
      (matchAtoms as pr.2).map (fun m => (pr.1 :: m.1, m.2)))
  | RAtom.rdot :: as, s =>
    match s with
    | [] => []
    | c :: rest =>
      if c = '\n' then []
      else (matchAtoms as rest).map (fun m => ([c] :: m.1, m.2))
  | RAtom.rchr ch :: as, s =>
    match s with
    | [] => []
    | c :: rest =>
      if c = ch then (matchAtoms as rest).map (fun m => ([c] :: m.1, m.2))
      else []

/-- Python `re.search`: leftmost start position wins, then backtracking order. -/
def searchPat (pat : List RAtom) (s : List Char) : Option (List (List Char)) :=
  match matchAtoms pat s with
  | m :: _ => some m.1
  | [] =>
    match s with
    | [] => none
    | _ :: rest => searchPat pat rest

/-- Python `\s` (ASCII). -/
def pyIsSpace (c : Char) : Bool :=
  c = ' ' || c = '\t' || c = '\n' || c = '\r' || c = '\x0b' || c = '\x0c'

/-- Python `\w` (ASCII). -/
def pyIsWord (c : Char) : Bool := c.isAlpha || c.isDigit || c = '_'

/-- Python `\d` (ASCII). -/
def pyIsDigit (c : Char) : Bool := c.isDigit

/-! ## The fixed catalogs (module-level constants of `tlsparser.py`) -/

def LIST_OF_ATTACKS : List String :=
  [ "Padding Oracle",
    "Bleichenbacher",
    "CRIME",
    "Breach",
    "Invalid Curve",
    "Invalid Curve Ephemerals",
    "SSL Poodle",
    "TLS Poodle",
    "CVE-20162107",
    "Logjam",
    "Sweet 32",
    "DROWN",
    "Heartbleed",
    "EarlyCcs" ]

def LIST_OF_BUGS : List String :=
  [ "Version Intolerant",
    "Ciphersuite Intolerant",
    "Extension Intolerant",
    "CS Length Intolerant \\(>512 Byte\\)",
    "Compression Intolerant",
    "ALPN Intolerant",
    "CH Length Intolerant",
    "NamedGroup Intolerant",
    "Empty last Extension Intolerant",
    "SigHashAlgo Intolerant",
    "Big ClientHello Intolerant",
    "2nd Ciphersuite Byte Bug",
    "Ignores offered Ciphersuites",
    "Reflects offered Ciphersuites",
    "Ignores offered NamedGroups",
    "Ignores offered SigHashAlgos" ]

/-- The literal characters a catalog entry matches when interpolated into a
regex: backslash-escape pairs (`\(`, `\)`, the only escapes occurring in the
catalogs) denote the escaped character itself. -/
def regexLit (s : String) : List Char := s.toList.filter (fun c => c != '\\')

/-- The atom sequence of `r"{entry}\s+: (\w+)"`: the entry literally, one or
more whitespace, a colon, a space, then the captured word. -/
def entryAtoms (name : List Char) : List RAtom :=
  name.map RAtom.rchr ++
    [RAtom.rplus pyIsSpace, RAtom.rchr ':', RAtom.rchr ' ', RAtom.rplus pyIsWord]

/-- The value captured by the first match of `r"{entry}\s+: (\w+)"` in the
text: `findall(...)[0]` of the source. -/
def firstCapture (name : List Char) (text : List Char) : Option (List Char) :=
  (searchPat (entryAtoms name) text).map (fun caps => caps.getLastD [])

/-! ## Report Decoder: `TlsParser._parse_attacks` -/

/-- Result of `_parse_attacks`: `("error", "error")` or the two dicts, whose
keys (in catalog order, the order the loops insert them) we keep. -/
inductive ParseOutcome : Type
  | perror : ParseOutcome
  | pok (attacks bugs : List String) : ParseOutcome
deriving DecidableEq, Repr

def CANNOT_REACH : String := "Cannot reach the Server"

def NO_SSL : String := "Server does not seem to support SSL"

def trueTok : List Char := "true".toList

/-- Model of `TlsParser._parse_attacks`: failure markers first, then one
first-match-must-be-"true" test per catalog entry. -/
def parse_attacks (results : String) : ParseOutcome :=
  let cs := results.toList
  if containsSub CANNOT_REACH.toList cs then ParseOutcome.perror
  else if containsSub NO_SSL.toList cs then ParseOutcome.perror
  else ParseOutcome.pok
    (LIST_OF_ATTACKS.filter (fun a => firstCapture (regexLit a) cs == some trueTok))
    (LIST_OF_BUGS.filter (fun b => firstCapture (regexLit b) cs == some trueTok))

example : parse_attacks "Heartbleed : true\nDROWN : false" =
    ParseOutcome.pok ["Heartbleed"] [] := by decide

example : parse_attacks "some text\nCannot reach the Server\nmore" =
    ParseOutcome.perror := by decide

example : parse_attacks "Heartbleed : True" = ParseOutcome.pok [] [] := by decide

example : parse_attacks "Version Intolerant\t : true" =
    ParseOutcome.pok [] ["Version Intolerant"] := by decide

/-! ## Data model of the pipeline's structures -/

/-- The attacks/bugs value held in a record: the dict `{name: True, …}` the
decoder builds, or the list of names `save_results_csv` replaces it with. -/
inductive NamesVal : Type
  | asDict (l : List String) : NamesVal
  | asList (l : List String) : NamesVal
deriving DecidableEq, Repr

/-- Iterating the value (`for item in sublist`, `attack in host.get("attacks")`)
yields the names in both representations. -/
def NamesVal.names : NamesVal → List String
  | NamesVal.asDict l => l
  | NamesVal.asList l => l

/-- Python `.keys()`: only a dict has it (on a list it raises `AttributeError`). -/
def NamesVal.pyKeys : NamesVal → Option (List String)
  | NamesVal.asDict l => some l
  | NamesVal.asList _ => none

/-- One value of the pipeline's own result map `all_results` (the dict built
at `load_tls_scan_results`); `ip` is absent (`none`) until `save_results_csv`
inserts it. -/
structure HostRecord : Type where
  vendor : String
  product : String
  port : String
  attacks : NamesVal
  bugs : NamesVal
  vulnerabilities : List String
  ip : Option String
deriving DecidableEq, Repr

/-- A vulnerability sub-source of the external dataset: a list of identifiers
or a mapping whose keys are the identifiers. -/
inductive SrcVal : Type
  | ofList (ids : List String) : SrcVal
  | ofDict (keys : List String) : SrcVal
deriving DecidableEq, Repr

/-- Python `x or []` then `list(x.keys())` if a dict: identifiers contributed by a
sub-source (`none` models an absent or `None`-valued key). -/
def srcIds : Option SrcVal → List String
  | none => []
  | some (SrcVal.ofList l) => l
  | some (SrcVal.ofDict l) => l

/-- The `"vulnerabilities"` value of an external host entry. -/
structure VulnField : Type where
  shodan : Option SrcVal
  vulners : Option SrcVal
deriving DecidableEq, Repr

/-- Python truthiness of the vulnerabilities dict (nonempty). -/
def VulnField.truthy (v : VulnField) : Bool :=
  v.shodan.isSome || v.vulners.isSome

/-- One entry of the caller-owned `self.hosts` dataset; `other` models any
further fields the caller stores there, opaque to the pipeline. -/
structure ExtHost : Type where
  vulnerabilities : Option VulnField
  attacks : Option NamesVal
  bugs : Option NamesVal
  other : List (String × String)
deriving DecidableEq, Repr

/-- Python truthiness of the entry: a dict is truthy iff it has a key. -/
def ExtHost.truthy (h : ExtHost) : Bool :=
  h.vulnerabilities.isSome || h.attacks.isSome || h.bugs.isSome || !h.other.isEmpty

/-! ## Vulnerability Resolver: `TlsParser._search_vulnerabilities` -/

/-- Model of `TlsParser._search_vulnerabilities`: `[]` for a missing or falsy entry or
vulnerabilities field, else `list(set(shodan + vulners))` (set order
determinized as first occurrence). -/
def search_vulnerabilities (hosts : List (String × ExtHost)) (host_ip : String) :
    List String :=
  match lookupA hosts host_ip with
  | none => []
  | some h =>
    if !h.truthy then []
    else
      match h.vulnerabilities with
      | none => []
      | some v =>
        if !v.truthy then []
        else firstDedup (srcIds v.shodan ++ srcIds v.vulners)

/-! ## Filename Decoder: `findall(r"(\d+.\d+.\d+.\d+)-(\d+)-(\w+)-(.+).txt", file)` -/

/-- The seventeen atoms of the filename regex; the unescaped dots of the
"ipv4" part match any character, as in the source. -/
def filenameAtoms : List RAtom :=
  [ RAtom.rplus pyIsDigit, RAtom.rdot, RAtom.rplus pyIsDigit, RAtom.rdot,
    RAtom.rplus pyIsDigit, RAtom.rdot, RAtom.rplus pyIsDigit,
    RAtom.rchr '-', RAtom.rplus pyIsDigit,
    RAtom.rchr '-', RAtom.rplus pyIsWord,
    RAtom.rchr '-', RAtom.rplus (fun c => c != '\n'),
    RAtom.rdot, RAtom.rchr 't', RAtom.rchr 'x', RAtom.rchr 't' ]

/-- Reassemble the four capture groups (ip, port, vendor, product) from the
per-atom consumed substrings. -/
def capsToQuad (caps : List (List Char)) : String × String × String × String :=
  ( String.mk (caps.getD 0 [] ++ caps.getD 1 [] ++ caps.getD 2 [] ++ caps.getD 3 [] ++
      caps.getD 4 [] ++ caps.getD 5 [] ++ caps.getD 6 []),
    String.mk (caps.getD 8 []),
    String.mk (caps.getD 10 []),
    String.mk (caps.getD 12 []) )

/-- Python `findall(filename_regex, file)[0]`, or `none` when the list is empty. -/
def parseFilename (file : String) : Option (String × String × String × String) :=
  (searchPat filenameAtoms file.toList).map capsToQuad

/-- Python `s.replace("_", " ")`. -/
def underscoresToSpaces (s : String) : String :=
  String.mk (s.toList.map (fun c => if c = '_' then ' ' else c))

example : parseFilename "1.2.3.4-443-Acme_Corp-Widget_X.txt" =
    some ("1.2.3.4", "443", "Acme_Corp", "Widget_X") := by decide

example : parseFilename "notes.txt" = none := by decide

/-! ## Ingestion Driver: `TlsParser.load_tls_scan_results` (per-file loop) -/

/-- The pipeline state the per-file loop threads: the fresh `all_results`
map and the caller-owned `self.hosts` dataset. -/
structure PState : Type where
  allResults : List (String × HostRecord)
  hosts : List (String × ExtHost)
deriving DecidableEq, Repr

/-- The body of the `for file in listdir(...)` loop, for one file given as
(filename, content): decode the report (skip on error), decode the filename
(skip on no match), resolve vulnerabilities, insert a record if the ip is not
yet in `all_results`, and overwrite the attacks/bugs of a truthy existing
`self.hosts` entry when nonempty. -/
def processFile (st : PState) (file : String × String) : PState :=
  match parse_attacks file.2 with
  | ParseOutcome.perror => st
  | ParseOutcome.pok attacks bugs =>
    match parseFilename file.1 with
    | none => st
    | some (ip, port, vendor0, product0) =>
      let vendor := underscoresToSpaces vendor0
      let product := underscoresToSpaces product0
      let vulnerabilities := search_vulnerabilities st.hosts ip
      let st1 :=
        if (lookupA st.allResults ip).isNone then
          { st with allResults := st.allResults ++
              [(ip, { vendor := vendor, product := product, port := port,
                      attacks := NamesVal.asDict attacks, bugs := NamesVal.asDict bugs,
                      vulnerabilities := vulnerabilities, ip := none })] }
        else st
      match lookupA st1.hosts ip with
      | none => st1
      | some h =>
        if h.truthy then
          let h1 := if attacks.isEmpty then h
                    else { h with attacks := some (NamesVal.asDict attacks) }
          let h2 := if bugs.isEmpty then h1
                    else { h1 with bugs := some (NamesVal.asDict bugs) }
          { st1 with hosts := updateA st1.hosts ip h2 }
        else st1

/-- The whole per-file loop over the directory listing, given as an ordered
list of (filename, content) pairs. -/
def runFiles (st : PState) (files : List (String × String)) : PState :=
  files.foldl processFile st

/-! ## Frequency Aggregator: `TlsParser.count_unique_entities` -/

inductive EntType : Type
  | attacks : EntType
  | bugs : EntType
  | vulnerabilities : EntType
deriving DecidableEq, Repr

/-- Python `host.get(ent_type)` followed by iteration: dict iteration yields keys,
list iteration yields elements. -/
def HostRecord.entNames (r : HostRecord) : EntType → List String
  | EntType.attacks => r.attacks.names
  | EntType.bugs => r.bugs.names
  | EntType.vulnerabilities => r.vulnerabilities

/-- The flattened multiset of one field over all hosts
(`[item for sublist in all_attacks for item in sublist]`). -/
def flatEnt (results : List (String × HostRecord)) (t : EntType) : List String :=
  (results.map (fun p => p.2.entNames t)).flatten

/-- Model of `TlsParser.count_unique_entities`: count the flattened entries and sort
by count, descending, stably. -/
def count_unique_entities (results : List (String × HostRecord)) (t : EntType) :
    List (String × Nat) :=
  sortDesc (countOcc (flatEnt results t))

/-! ## Flat CSV serializer: `TlsParser.save_results_csv` (mutation effect)

Besides writing rows, `save_results_csv` mutates every record of the map it
is given: `data.update({"ip": ip})` and the replacement of the attacks/bugs
dicts by `list(data[...].keys())`.  The mutation fails (`AttributeError`)
if a value is already a list. -/

/-- The in-place mutation `save_results_csv` performs on the result map. -/
def save_results_csv_mutate (results : List (String × HostRecord)) :
    Option (List (String × HostRecord)) :=
  optMap (fun p =>
    match p.2.attacks.pyKeys, p.2.bugs.pyKeys with
    | some aks, some bks =>
      some (p.1, { p.2 with attacks := NamesVal.asList aks,
                            bugs := NamesVal.asList bks, ip := some p.1 })
    | _, _ => none) results

/-! ## Grouped Report Builder: `TlsParser.save_unique_groupped_results_csv`

Lines 298-303 recompute the attack frequency table (same code as
`count_unique_entities` on the attacks field).  For each attack the hosts
having it are grouped by vendor then product (`list(set(...))` determinized
as first occurrence); each product's entry holds the `"ip:port"` list and its
length as quantity.  The per-product `sorted(...)` of the source is applied
to a one-element dict `{product: {...}}` and therefore cannot reorder
anything; the product order is the product-set enumeration order.  Reading
`host.get("ip")` fails (`TypeError` on `None + ":"`) when the record lacks
the `"ip"` key `save_results_csv` inserts. -/

/-- Python `host.get("ip") + ":" + host.get("port")`, failing when `ip` is absent. -/
def hostIpPort (r : HostRecord) : Option String :=
  r.ip.map (fun i => i ++ ":" ++ r.port)

/-- Grouped structure: attack ↦ vendor ↦ product ↦ (ips, quantity). -/
abbrev GroupedRes : Type :=
  List (String × List (String × List (String × (List String × Nat))))

/-- The `groupped_results` nested dict of the source (`none` when some needed
record lacks its `"ip"` key). -/
def buildGrouped (results : List (String × HostRecord)) : Option GroupedRes :=
  let hostsL := results.map (fun p => p.2)
  let table := sortDesc (countOcc ((hostsL.map (fun r => r.attacks.names)).flatten))
  optMap (fun (aq : String × Nat) =>
    let attack := aq.1
    let withA := hostsL.filter (fun r => r.attacks.names.contains attack)
    let vendors := firstDedup (withA.map (fun r => r.vendor))
    (optMap (fun v =>
      let byVendor := withA.filter (fun r => r.vendor == v)
      let prods := firstDedup (byVendor.map (fun r => r.product))
      (optMap (fun p =>
        let sel := byVendor.filter (fun r => r.product == p)
        (optMap hostIpPort sel).map (fun ips => (p, (ips, ips.length)))) prods).map
        (fun l => (v, l))) vendors).map (fun l => (attack, l))) table

/-- The vendor-total quantity synthesized at serialization time (line 346 of
the source): the sum of the vendor's per-product quantities. -/
def vendorTotalQty (prods : List (String × (List String × Nat))) : Nat :=
  (prods.map (fun q => q.2.2)).sum

/-! ## JSON serializer failure flow: `save_results_json` in `load_tls_scan_results`

`save_results_json` wraps `json.dump` in `try/except` and raises
`Exception("Can not save hosts to json file")` on failure; the nine save
calls of `load_tls_scan_results` run sequentially with no surrounding
handler, so the first raise propagates and aborts the rest.  Whether `dump`
can encode the data is environmental; it is abstracted as the `encFail`
oracle over artifact filenames. -/

def SAVE_ERROR_MSG : String := "Can not save hosts to json file"

/-- Sequential artifact saving: each artifact is attempted in order until one
fails to encode; returns the artifacts written and the raised message, if
any.  Artifacts after a failure are never attempted. -/
def saveArtifacts (encFail : String → Bool) : List String → List String × Option String
  | [] => ([], none)
  | a :: rest =>
    if encFail a then ([], some SAVE_ERROR_MSG)
    else
      let r := saveArtifacts encFail rest
      (a :: r.1, r.2)

/-- The nine output artifacts of `load_tls_scan_results`, in call order
(lines 167-177 of the source, filenames from `DefaultTlsParserValues`). -/
def artifactsInOrder : List String :=
  [ "tls_scanner_results.json",
    "tls_scanner_attacks.json",
    "tls_scanner_bugs.json",
    "tls_scanner_vulnerabilities.json",
    "tls_scanner_results.csv",
    "tls_scanner_attacks.csv",
    "tls_scanner_bugs.csv",
    "tls_scanner_vulnerabilities.csv",
    "tls_scanner_groupped.csv" ]

/-! ## Lemmas about the list helpers -/

theorem mem_firstDedupAux {α : Type} [DecidableEq α] (x : α) (l : List α) :
    ∀ seen, (x ∈ firstDedupAux seen l ↔ x ∈ l ∧ x ∉ seen) := by
  induction l with
  | nil => intro seen; simp [firstDedupAux]
  | cons y ys ih =>
    intro seen
    rw [firstDedupAux]
    by_cases hy : y ∈ seen
    · rw [if_pos hy, ih seen]
      constructor
      · rintro ⟨h1, h2⟩
        exact ⟨List.mem_cons_of_mem _ h1, h2⟩
      · rintro ⟨h1, h2⟩
        rcases List.mem_cons.mp h1 with h1 | h1
        · exact absurd (h1 ▸ hy) h2
        · exact ⟨h1, h2⟩
    · rw [if_neg hy]
      by_cases hxy : x = y
      · subst hxy
        simp [hy]
      · rw [List.mem_cons, or_iff_right hxy, ih (y :: seen)]
        constructor
        · rintro ⟨h1, h2⟩
          exact ⟨List.mem_cons_of_mem _ h1, fun hs => h2 (List.mem_cons_of_mem _ hs)⟩
        · rintro ⟨h1, h2⟩
          rcases List.mem_cons.mp h1 with h1 | h1
          · exact absurd h1 hxy
          · exact ⟨h1, fun hs => by
              rcases List.mem_cons.mp hs with hs | hs
              · exact hxy hs
              · exact h2 hs⟩

theorem mem_firstDedup {α : Type} [DecidableEq α] (x : α) (l : List α) :
    x ∈ firstDedup l ↔ x ∈ l := by
  rw [firstDedup, mem_firstDedupAux]
  simp

theorem nodup_firstDedupAux {α : Type} [DecidableEq α] (l : List α) :
    ∀ seen, (firstDedupAux seen l).Nodup := by
  induction l with
  | nil => intro seen; simp [firstDedupAux]
  | cons y ys ih =>
    intro seen
    rw [firstDedupAux]
    by_cases hy : y ∈ seen
    · rw [if_pos hy]
      exact ih seen
    · rw [if_neg hy]
      refine List.nodup_cons.mpr ⟨fun hmem => ?_, ih (y :: seen)⟩
      exact ((mem_firstDedupAux y ys (y :: seen)).mp hmem).2 (List.mem_cons_self _ _)

theorem nodup_firstDedup {α : Type} [DecidableEq α] (l : List α) :
    (firstDedup l).Nodup :=
  nodup_firstDedupAux l []

theorem firstDedup_perm_dedup {α : Type} [DecidableEq α] (l : List α) :
    (firstDedup l).Perm l.dedup := by
  refine (List.perm_ext_iff_of_nodup (nodup_firstDedup l) l.nodup_dedup).mpr fun a => ?_
  rw [mem_firstDedup, List.mem_dedup]

theorem sum_count_firstDedup {α : Type} [DecidableEq α] (l : List α) :
    ((firstDedup l).map (fun x => l.count x)).sum = l.length := by
  have hperm := (firstDedup_perm_dedup l).map (fun x => l.count x)
  rw [hperm.sum_eq]
  exact List.sum_map_count_dedup_eq_length l

theorem sum_countOcc {α : Type} [DecidableEq α] (l : List α) :
    ((countOcc l).map Prod.snd).sum = l.length := by
  rw [countOcc, List.map_map]
  exact sum_count_firstDedup l

theorem mem_countOcc_iff {α : Type} [DecidableEq α] {l : List α} {q : α × Nat} :
    q ∈ countOcc l ↔ q.1 ∈ l ∧ q.2 = l.count q.1 := by
  rw [countOcc, List.mem_map]
  constructor
  · rintro ⟨x, hx, hq⟩
    rw [← hq]
    exact ⟨(mem_firstDedup _ _).mp hx, rfl⟩
  · rintro ⟨h1, h2⟩
    refine ⟨q.1, (mem_firstDedup _ _).mpr h1, ?_⟩
    rw [← h2]

theorem keys_countOcc {α : Type} [DecidableEq α] (l : List α) :
    (countOcc l).map Prod.fst = firstDedup l := by
  rw [countOcc, List.map_map]
  have hcomp : (Prod.fst ∘ fun x : α => (x, l.count x)) = id := rfl
  rw [hcomp, List.map_id]

/-- The per-element indicator sum is a filter length. -/
theorem sum_indicator {α : Type} (P : α → Bool) :
    (l : List α) → ((l.map (fun x => if P x then 1 else 0)).sum = (l.filter P).length)
  | [] => rfl
  | x :: xs => by
    by_cases h : P x <;>
      simp [List.filter_cons, h, sum_indicator P xs, Nat.add_comm]

/-- Partitioning a list by a key function: the filter blocks over the distinct
keys cover the list exactly once. -/
theorem sum_filter_firstDedup {α β : Type} [DecidableEq β] (f : α → β) (l : List α) :
    ((firstDedup (l.map f)).map (fun k => (l.filter (fun x => f x == k)).length)).sum
      = l.length := by
  have hcongr : (firstDedup (l.map f)).map (fun k => (l.filter (fun x => f x == k)).length)
      = (firstDedup (l.map f)).map (fun k => (l.map f).count k) := by
    refine List.map_congr_left fun k _ => ?_
    rw [List.count, List.countP_map]
    rw [List.countP_eq_length_filter]
    rfl
  rw [hcongr, sum_count_firstDedup, List.length_map]

/-! ## Lemmas about the descending stable sort -/

theorem perm_insDesc {α : Type} (x : α × Nat) :
    (l : List (α × Nat)) → (insDesc x l).Perm (x :: l)
  | [] => List.Perm.refl _
  | y :: ys => by
    rw [insDesc]
    by_cases h : y.2 ≤ x.2
    · simp [h]
    · simp only [h, if_false]
      exact ((perm_insDesc x ys).cons y).trans (List.Perm.swap _ _ _)

theorem perm_sortDesc {α : Type} :
    (l : List (α × Nat)) → (sortDesc l).Perm l
  | [] => List.Perm.refl _
  | x :: xs => by
    rw [sortDesc]
    exact (perm_insDesc x (sortDesc xs)).trans ((perm_sortDesc xs).cons x)

theorem mem_insDesc {α : Type} {x z : α × Nat} {l : List (α × Nat)} :
    z ∈ insDesc x l ↔ z = x ∨ z ∈ l := by
  rw [(perm_insDesc x l).mem_iff, List.mem_cons]

theorem pairwise_insDesc {α : Type} (x : α × Nat) :
    (l : List (α × Nat)) → List.Pairwise (fun a b : α × Nat => b.2 ≤ a.2) l →
      List.Pairwise (fun a b : α × Nat => b.2 ≤ a.2) (insDesc x l)
  | [], _ => List.pairwise_singleton _ _
  | y :: ys, h => by
    rw [insDesc]
    rcases List.pairwise_cons.mp h with ⟨hy, hys⟩
    by_cases hle : y.2 ≤ x.2
    · simp only [hle, if_true]
      refine List.pairwise_cons.mpr ⟨?_, h⟩
      intro z hz
      rcases List.mem_cons.mp hz with hz | hz
      · exact hz ▸ hle
      · exact Nat.le_trans (hy z hz) hle
    · simp only [hle, if_false]
      refine List.pairwise_cons.mpr ⟨?_, pairwise_insDesc x ys hys⟩
      intro z hz
      rcases mem_insDesc.mp hz with hz | hz
      · exact hz ▸ Nat.le_of_lt (Nat.lt_of_not_le hle)
      · exact hy z hz

theorem pairwise_sortDesc {α : Type} :
    (l : List (α × Nat)) → List.Pairwise (fun a b : α × Nat => b.2 ≤ a.2) (sortDesc l)
  | [] => List.Pairwise.nil
  | x :: xs => pairwise_insDesc x (sortDesc xs) (pairwise_sortDesc xs)

/-! ## Lemmas about the association-list dict model -/

theorem lookupA_nil {α : Type} (k : String) : lookupA ([] : List (String × α)) k = none := rfl

theorem lookupA_cons {α : Type} (p : String × α) (l : List (String × α)) (k : String) :
    lookupA (p :: l) k = if p.1 = k then some p.2 else lookupA l k := by
  by_cases h : p.1 = k <;> simp [lookupA, List.find?_cons, h]

theorem lookupA_append_of_some {α : Type} {l : List (String × α)} {k : String} {v : α}
    (h : lookupA l k = some v) (l2 : List (String × α)) :
    lookupA (l ++ l2) k = some v := by
  induction l with
  | nil => simp [lookupA_nil] at h
  | cons p rest ih =>
    rw [List.cons_append, lookupA_cons] at *
    by_cases hp : p.1 = k
    · simpa [hp] using h
    · rw [if_neg hp] at h ⊢
      exact ih h

theorem lookupA_append_of_none {α : Type} {l : List (String × α)} {k : String}
    (h : lookupA l k = none) (l2 : List (String × α)) :
    lookupA (l ++ l2) k = lookupA l2 k := by
  induction l with
  | nil => simp
  | cons p rest ih =>
    rw [lookupA_cons] at h
    by_cases hp : p.1 = k
    · simp [hp] at h
    · rw [if_neg hp] at h
      rw [List.cons_append, lookupA_cons, if_neg hp]
      exact ih h

theorem lookupA_none_iff {α : Type} (l : List (String × α)) (k : String) :
    lookupA l k = none ↔ k ∉ l.map Prod.fst := by
  induction l with
  | nil => simp [lookupA_nil]
  | cons p rest ih =>
    rw [lookupA_cons]
    by_cases hp : p.1 = k
    · simp [hp]
    · simp [hp, ih, Ne.symm hp]

theorem lookupA_updateA_ne {α : Type} (l : List (String × α)) (k k' : String) (v : α)
    (h : k' ≠ k) : lookupA (updateA l k v) k' = lookupA l k' := by
  induction l with
  | nil => rfl
  | cons p rest ih =>
    rw [updateA, List.map_cons]
    by_cases hp : p.1 = k
    · rw [if_pos (by simpa using hp), lookupA_cons, lookupA_cons, hp]
      simp only [if_neg (Ne.symm h)]
      exact ih
    · rw [if_neg (by simpa using hp), lookupA_cons, lookupA_cons]
      by_cases hk : p.1 = k'
      · simp [hk]
      · rw [if_neg hk, if_neg hk]
        exact ih

theorem lookupA_updateA_self {α : Type} (l : List (String × α)) (k : String) (v w : α)
    (h : lookupA l k = some w) : lookupA (updateA l k v) k = some v := by
  induction l with
  | nil => simp [lookupA_nil] at h
  | cons p rest ih =>
    rw [lookupA_cons] at h
    rw [updateA, List.map_cons]
    by_cases hp : p.1 = k
    · rw [if_pos (by simpa using hp), lookupA_cons, if_pos rfl]
    · rw [if_neg (by simpa using hp), lookupA_cons, if_neg hp]
      rw [if_neg hp] at h
      exact ih h

theorem keys_updateA {α : Type} (l : List (String × α)) (k : String) (v : α) :
    (updateA l k v).map Prod.fst = l.map Prod.fst := by
  rw [updateA, List.map_map]
  refine List.map_congr_left fun p _ => ?_
  by_cases hp : p.1 = k
  · simp [Function.comp, hp]
  · simp [Function.comp, hp]

theorem mem_of_lookupA_some {α : Type} {l : List (String × α)} {k : String} {v : α}
    (h : lookupA l k = some v) : (k, v) ∈ l := by
  induction l with
  | nil => simp [lookupA_nil] at h
  | cons p rest ih =>
    rw [lookupA_cons] at h
    by_cases hp : p.1 = k
    · rw [if_pos hp] at h
      rcases p with ⟨k0, v0⟩
      cases hp
      cases h
      exact List.mem_cons_self _ _
    · rw [if_neg hp] at h
      exact List.mem_cons_of_mem _ (ih h)

theorem lookupA_of_mem_nodup {α : Type} {l : List (String × α)} {k : String} {v : α}
    (hnd : (l.map Prod.fst).Nodup) (h : (k, v) ∈ l) : lookupA l k = some v := by
  induction l with
  | nil => simp at h
  | cons p rest ih =>
    rw [List.map_cons, List.nodup_cons] at hnd
    rw [lookupA_cons]
    rcases List.mem_cons.mp h with h | h
    · rw [← h]
      simp
    · by_cases hp : p.1 = k
      · exfalso
        exact hnd.1 (hp ▸ List.mem_map.mpr ⟨(k, v), h, rfl⟩)
      · rw [if_neg hp]
        exact ih hnd.2 h

/-! ## Lemmas about `optMap` -/

theorem optMap_eq_map {α β : Type} (f : α → Option β) (g : α → β) :
    (l : List α) → (∀ a ∈ l, f a = some (g a)) → optMap f l = some (l.map g)
  | [], _ => rfl
  | x :: xs, h => by
    rw [optMap, h x (List.mem_cons_self _ _),
      optMap_eq_map f g xs (fun a ha => h a (List.mem_cons_of_mem _ ha))]
    rfl

theorem optMap_eq_none {α β : Type} (f : α → Option β) {a : α} :
    (l : List α) → a ∈ l → f a = none → optMap f l = none
  | x :: xs, ha, hf => by
    rw [optMap]
    rcases List.mem_cons.mp ha with h | h
    · rw [← h, hf]
    · rw [optMap_eq_none f xs h hf]
      cases f x <;> rfl

/-! ## Lemmas about the ingestion driver -/

theorem parse_attacks_error_of_marker {t : String}
    (h : containsSub CANNOT_REACH.toList t.toList = true
       ∨ containsSub NO_SSL.toList t.toList = true) :
    parse_attacks t = ParseOutcome.perror := by
  have hd : containsSub CANNOT_REACH.data t.data = true
      ∨ containsSub NO_SSL.data t.data = true := h
  rcases hd with hd | hd
  · simp [parse_attacks, hd]
  · by_cases h1 : containsSub CANNOT_REACH.data t.data = true
    · simp [parse_attacks, h1]
    · simp [parse_attacks, h1, hd]

/-- A file whose report carries a failure marker or whose filename does not
match is a no-op for the driver state. -/
theorem processFile_skip (st : PState) (fn txt : String)
    (h : containsSub CANNOT_REACH.toList txt.toList = true
       ∨ containsSub NO_SSL.toList txt.toList = true
       ∨ parseFilename fn = none) :
    processFile st (fn, txt) = st := by
  rcases h with h | h | h
  · have hp := parse_attacks_error_of_marker (Or.inl h)
    simp [processFile, hp]
  · have hp := parse_attacks_error_of_marker (Or.inr h)
    simp [processFile, hp]
  · cases hpa : parse_attacks txt with
    | perror => simp [processFile, hpa]
    | pok a b => simp [processFile, hpa, h]

/-- Shape of the result-map effect of one file: unchanged, or one fresh ip
appended at the end. -/
theorem processFile_allResults_shape (st : PState) (f : String × String) :
    (processFile st f).allResults = st.allResults ∨
    ∃ ip rec, lookupA st.allResults ip = none ∧
      (processFile st f).allResults = st.allResults ++ [(ip, rec)] := by
  cases hpa : parse_attacks f.2 with
  | perror => left; simp [processFile, hpa]
  | pok attacks bugs =>
    cases hfn : parseFilename f.1 with
    | none => left; simp [processFile, hpa, hfn]
    | some q =>
      obtain ⟨ip, port, vendor0, product0⟩ := q
      simp only [processFile, hpa, hfn]
      by_cases hin : (lookupA st.allResults ip).isNone = true
      · right
        refine ⟨ip,
          { vendor := underscoresToSpaces vendor0, product := underscoresToSpaces product0,
            port := port, attacks := NamesVal.asDict attacks, bugs := NamesVal.asDict bugs,
            vulnerabilities := search_vulnerabilities st.hosts ip, ip := none },
          Option.isNone_iff_eq_none.mp hin, ?_⟩
        rw [if_pos hin]
        split
        · rfl
        · split <;> rfl
      · left
        rw [if_neg hin]
        split
        · rfl
        · split <;> rfl

theorem processFile_preserves_entry {st : PState} {ip : String} {r : HostRecord}
    (h : lookupA st.allResults ip = some r) (f : String × String) :
    lookupA (processFile st f).allResults ip = some r := by
  rcases processFile_allResults_shape st f with hs | ⟨ip', rec, _, hs⟩
  · rw [hs]; exact h
  · rw [hs]; exact lookupA_append_of_some h _

theorem processFile_keys_nodup {st : PState} (f : String × String)
    (h : (st.allResults.map Prod.fst).Nodup) :
    ((processFile st f).allResults.map Prod.fst).Nodup := by
  rcases processFile_allResults_shape st f with hs | ⟨ip', rec, hnone, hs⟩
  · rw [hs]; exact h
  · rw [hs, List.map_append]
    rw [List.nodup_append]
    refine ⟨h, List.nodup_singleton _, ?_⟩
    intro a ha hb
    simp only [List.map_cons, List.map_nil, List.mem_singleton] at hb
    exact (lookupA_none_iff _ _).mp hnone (hb ▸ ha)

theorem runFiles_preserves_entry {ip : String} {r : HostRecord} :
    (files : List (String × String)) → (st : PState) →
    lookupA st.allResults ip = some r →
    lookupA (runFiles st files).allResults ip = some r
  | [], _, h => h
  | f :: fs, st, h =>
    runFiles_preserves_entry fs (processFile st f) (processFile_preserves_entry h f)

theorem runFiles_keys_nodup :
    (files : List (String × String)) → (st : PState) →
    (st.allResults.map Prod.fst).Nodup →
    ((runFiles st files).allResults.map Prod.fst).Nodup
  | [], _, h => h
  | f :: fs, st, h =>
    runFiles_keys_nodup fs (processFile st f) (processFile_keys_nodup f h)

/-! ## Claims C1 and C3 -/

/-- C3: a report file whose text contains either failure marker, or whose
filename does not match the `<ipv4>-<port>-<vendor>-<product>.txt` pattern,
is skipped by the ingestion driver: the whole run over the file listing is
the run without that file, so it contributes nothing to the result map, the
external dataset mutation, or any downstream frequency/grouped output. -/
theorem C3_unusable_file_contributes_nothing (st : PState)
    (pre post : List (String × String)) (fn txt : String)
    (h : containsSub CANNOT_REACH.toList txt.toList = true
       ∨ containsSub NO_SSL.toList txt.toList = true
       ∨ parseFilename fn = none) :
    runFiles st (pre ++ (fn, txt) :: post) = runFiles st (pre ++ post) := by
  rw [runFiles, runFiles, List.foldl_append, List.foldl_append, List.foldl_cons,
    processFile_skip _ _ _ h]

theorem C3_witness :
    runFiles ⟨[], []⟩ [("1.2.3.4-443-Acme-Box.txt", "Heartbleed : true"),
                       ("5.5.5.5-80-V-P.txt", "Cannot reach the Server")] =
      runFiles ⟨[], []⟩ [("1.2.3.4-443-Acme-Box.txt", "Heartbleed : true")] :=
  C3_unusable_file_contributes_nothing ⟨[], []⟩
    [("1.2.3.4-443-Acme-Box.txt", "Heartbleed : true")] []
    "5.5.5.5-80-V-P.txt" "Cannot reach the Server" (Or.inl (by decide))

/-- C1 (amended): the result map retains at most one HostRecord per ip, and
the record retained is the one from the FIRST file processed for that ip:
once an ip is present, no later file ever replaces its record. -/
theorem C1_at_most_one_record_first_file_wins (st : PState)
    (files : List (String × String)) (hnd : (st.allResults.map Prod.fst).Nodup) :
    ((runFiles st files).allResults.map Prod.fst).Nodup ∧
    ∀ ip r, lookupA st.allResults ip = some r →
      lookupA (runFiles st files).allResults ip = some r :=
  ⟨runFiles_keys_nodup files st hnd,
   fun _ _ h => runFiles_preserves_entry files st h⟩

theorem C1_witness :
    lookupA (runFiles
        ⟨[("7.7.7.7", { vendor := "V", product := "P", port := "443",
                        attacks := NamesVal.asDict [], bugs := NamesVal.asDict [],
                        vulnerabilities := [], ip := none })], []⟩
        [("7.7.7.7-80-W-Q.txt", "DROWN : true")]).allResults "7.7.7.7" =
      some { vendor := "V", product := "P", port := "443",
             attacks := NamesVal.asDict [], bugs := NamesVal.asDict [],
             vulnerabilities := [], ip := none } :=
  (C1_at_most_one_record_first_file_wins
      ⟨[("7.7.7.7", { vendor := "V", product := "P", port := "443",
                      attacks := NamesVal.asDict [], bugs := NamesVal.asDict [],
                      vulnerabilities := [], ip := none })], []⟩
      [("7.7.7.7-80-W-Q.txt", "DROWN : true")] (by decide)).2
    "7.7.7.7" _ (by decide)

/-- C1 counterexample: two decodable report files for ip 9.9.9.9, ports 443
then 8443; the retained record's port is "443", the first file's, so the
last file processed for the ip does NOT win. -/
theorem C1_counterexample :
    (lookupA (runFiles ⟨[], []⟩
        [("9.9.9.9-443-Acme-Box1.txt", "Heartbleed : true"),
         ("9.9.9.9-8443-Acme-Box2.txt", "DROWN : true")]).allResults "9.9.9.9").map
        (fun r => r.port) = some "443" ∧ ("443" : String) ≠ "8443" :=
  ⟨by decide, by decide⟩

/-! ## Claim C2 -/

/-- C2: whenever the decoder returns a non-error result (exactly the texts
without a failure marker), a catalog entry is in the decoded attacks/bugs iff
the first match of `<entry><whitespace>: <value>` in the text captures
exactly the token "true"; in particular every decoded name is a catalog
entry, and a missing or different-valued (e.g. "false", "True") first match
leaves the entry absent. -/
theorem C2_decoder_entry_iff_first_match_true (txt : String) (atks bgs : List String)
    (hp : parse_attacks txt = ParseOutcome.pok atks bgs) :
    (∀ a, a ∈ atks ↔
       a ∈ LIST_OF_ATTACKS ∧ firstCapture (regexLit a) txt.toList = some trueTok) ∧
    (∀ b, b ∈ bgs ↔
       b ∈ LIST_OF_BUGS ∧ firstCapture (regexLit b) txt.toList = some trueTok) := by
  by_cases hm1 : containsSub CANNOT_REACH.toList txt.toList = true
  · have hperr : parse_attacks txt = ParseOutcome.perror := by
      simp only [parse_attacks]
      rw [if_pos hm1]
    rw [hperr] at hp
    exact ParseOutcome.noConfusion hp
  · by_cases hm2 : containsSub NO_SSL.toList txt.toList = true
    · have hperr : parse_attacks txt = ParseOutcome.perror := by
        simp only [parse_attacks]
        rw [if_neg hm1, if_pos hm2]
      rw [hperr] at hp
      exact ParseOutcome.noConfusion hp
    · simp only [parse_attacks] at hp
      rw [if_neg hm1, if_neg hm2] at hp
      injection hp with ha hb
      rw [← ha, ← hb]
      constructor <;> intro x <;> simp [List.mem_filter]

theorem C2_witness :
    ("Heartbleed" ∈ (["Heartbleed"] : List String) ↔
       "Heartbleed" ∈ LIST_OF_ATTACKS ∧
       firstCapture (regexLit "Heartbleed")
         "Heartbleed : true\nBreach : false".toList = some trueTok) :=
  (C2_decoder_entry_iff_first_match_true "Heartbleed : true\nBreach : false"
      ["Heartbleed"] [] (by decide)).1 "Heartbleed"

/-! ## Claim C7 -/

/-- C7: the vulnerability resolver returns the empty collection when the ip
is absent or its entry has no vulnerabilities field; otherwise it returns
the deduplicated union of the shodan and vulners sub-sources, where a
mapping contributes its keys and a list its elements. -/
theorem C7_vulnerability_resolver (hosts : List (String × ExtHost)) (ip : String) :
    (lookupA hosts ip = none → search_vulnerabilities hosts ip = []) ∧
    (∀ h, lookupA hosts ip = some h → h.vulnerabilities = none →
       search_vulnerabilities hosts ip = []) ∧
    (∀ h v, lookupA hosts ip = some h → h.vulnerabilities = some v →
       (search_vulnerabilities hosts ip).Nodup ∧
       ∀ x, x ∈ search_vulnerabilities hosts ip ↔
         x ∈ srcIds v.shodan ∨ x ∈ srcIds v.vulners) := by
  refine ⟨fun hnone => ?_, fun h hsome hvn => ?_, fun h v hsome hv => ?_⟩
  · simp [search_vulnerabilities, hnone]
  · rw [search_vulnerabilities, hsome]
    by_cases ht : h.truthy = true <;> simp [ht, hvn]
  · have ht : h.truthy = true := by
      rw [ExtHost.truthy, hv]
      simp
    rw [search_vulnerabilities, hsome]
    simp only [ht, hv, Bool.not_true, if_false, Bool.false_eq_true]
    by_cases hvt : v.truthy = true
    · simp only [hvt, Bool.not_true, Bool.false_eq_true, if_false]
      exact ⟨nodup_firstDedup _,
        fun x => by rw [mem_firstDedup, List.mem_append]⟩
    · have hsh : v.shodan = none := by
        rcases hs : v.shodan with _ | s
        · rfl
        · exact absurd (by rw [VulnField.truthy, hs]; simp) hvt
      have hvu : v.vulners = none := by
        rcases hs : v.vulners with _ | s
        · rfl
        · exact absurd (by rw [VulnField.truthy, hs]; simp) hvt
      simp [hvt, hsh, hvu, srcIds]

theorem C7_witness :
    (search_vulnerabilities
        [("1.2.3.4",
          { vulnerabilities := some
              { shodan := some (SrcVal.ofDict ["CVE-1", "CVE-2"]),
                vulners := some (SrcVal.ofList ["CVE-2", "CVE-3"]) },
            attacks := none, bugs := none, other := [] })] "1.2.3.4").Nodup ∧
    ("CVE-3" ∈ search_vulnerabilities
        [("1.2.3.4",
          { vulnerabilities := some
              { shodan := some (SrcVal.ofDict ["CVE-1", "CVE-2"]),
                vulners := some (SrcVal.ofList ["CVE-2", "CVE-3"]) },
            attacks := none, bugs := none, other := [] })] "1.2.3.4" ↔
      "CVE-3" ∈ srcIds (some (SrcVal.ofDict ["CVE-1", "CVE-2"])) ∨
      "CVE-3" ∈ srcIds (some (SrcVal.ofList ["CVE-2", "CVE-3"]))) := by
  have h := (C7_vulnerability_resolver
      [("1.2.3.4",
        { vulnerabilities := some
            { shodan := some (SrcVal.ofDict ["CVE-1", "CVE-2"]),
              vulners := some (SrcVal.ofList ["CVE-2", "CVE-3"]) },
          attacks := none, bugs := none, other := [] })] "1.2.3.4").2.2
      { vulnerabilities := some
          { shodan := some (SrcVal.ofDict ["CVE-1", "CVE-2"]),
            vulners := some (SrcVal.ofList ["CVE-2", "CVE-3"]) },
        attacks := none, bugs := none, other := [] }
      { shodan := some (SrcVal.ofDict ["CVE-1", "CVE-2"]),
        vulners := some (SrcVal.ofList ["CVE-2", "CVE-3"]) }
      (by decide) (by decide)
  exact ⟨h.1, h.2 "CVE-3"⟩

/-! ## Claim C6 -/

/-- C6: for a file whose decoded ip has a (truthy) entry in the external
dataset, only that entry's attacks field (iff the decoded attacks are
nonempty) and bugs field (iff the decoded bugs are nonempty) are
overwritten; empty decoded sets leave the field untouched, every other
field of the entry is unchanged, other keys are untouched, and no new ip
entries are added to the dataset. -/
theorem C6_external_dataset_frame (st : PState) (fn txt : String)
    (atks bgs : List String) (hp : parse_attacks txt = ParseOutcome.pok atks bgs)
    (ip port vendor0 product0 : String)
    (hfn : parseFilename fn = some (ip, port, vendor0, product0))
    (h : ExtHost) (hh : lookupA st.hosts ip = some h) (ht : h.truthy = true) :
    lookupA (processFile st (fn, txt)).hosts ip =
      some { h with
             attacks := if atks.isEmpty then h.attacks
                        else some (NamesVal.asDict atks),
             bugs := if bgs.isEmpty then h.bugs
                     else some (NamesVal.asDict bgs) } ∧
    (∀ k, k ≠ ip → lookupA (processFile st (fn, txt)).hosts k = lookupA st.hosts k) ∧
    (processFile st (fn, txt)).hosts.map Prod.fst = st.hosts.map Prod.fst := by
  have hrec :
      (if bgs.isEmpty then
         (if atks.isEmpty then h else { h with attacks := some (NamesVal.asDict atks) })
       else
         { (if atks.isEmpty then h else { h with attacks := some (NamesVal.asDict atks) })
           with bugs := some (NamesVal.asDict bgs) }) =
      { h with
        attacks := if atks.isEmpty then h.attacks else some (NamesVal.asDict atks),
        bugs := if bgs.isEmpty then h.bugs else some (NamesVal.asDict bgs) } := by
    by_cases ha : atks.isEmpty <;> by_cases hb : bgs.isEmpty <;> simp [ha, hb]
  have hhost : (processFile st (fn, txt)).hosts =
      updateA st.hosts ip
        { h with
          attacks := if atks.isEmpty then h.attacks else some (NamesVal.asDict atks),
          bugs := if bgs.isEmpty then h.bugs else some (NamesVal.asDict bgs) } := by
    simp only [processFile, hp, hfn]
    by_cases hin : (lookupA st.allResults ip).isNone = true
    · rw [if_pos hin]
      simp only [hh, ht, if_true]
      rw [hrec]
    · rw [if_neg hin]
      simp only [hh, ht, if_true]
      rw [hrec]
  refine ⟨?_, fun k hk => ?_, ?_⟩
  · rw [hhost]
    exact lookupA_updateA_self st.hosts ip _ h hh
  · rw [hhost]
    exact lookupA_updateA_ne st.hosts ip k _ hk
  · rw [hhost]
    exact keys_updateA st.hosts ip _

theorem C6_witness :
    lookupA (processFile
        ⟨[], [("3.3.3.3", { vulnerabilities := none,
                            attacks := some (NamesVal.asDict ["Old"]),
                            bugs := none, other := [("country", "DE")] })]⟩
        ("3.3.3.3-443-V-P.txt", "Heartbleed : true")).hosts "3.3.3.3" =
      some { vulnerabilities := none,
             attacks := some (NamesVal.asDict ["Heartbleed"]),
             bugs := none, other := [("country", "DE")] } :=
  (C6_external_dataset_frame
      ⟨[], [("3.3.3.3", { vulnerabilities := none,
                          attacks := some (NamesVal.asDict ["Old"]),
                          bugs := none, other := [("country", "DE")] })]⟩
      "3.3.3.3-443-V-P.txt" "Heartbleed : true" ["Heartbleed"] [] (by decide)
      "3.3.3.3" "443" "V" "P" (by decide)
      { vulnerabilities := none, attacks := some (NamesVal.asDict ["Old"]),
        bugs := none, other := [("country", "DE")] }
      (by decide) (by decide)).1

/-! ## Claim C4 -/

/-- C4: for every result map and every field, the frequency table's counts
sum to the total number of that field's entries across all hosts, and the
table is ordered by count descending. -/
theorem C4_frequency_sum_and_descending (results : List (String × HostRecord))
    (t : EntType) :
    ((count_unique_entities results t).map Prod.snd).sum =
      (results.map (fun p => (p.2.entNames t).length)).sum ∧
    List.Pairwise (fun x y : String × Nat => y.2 ≤ x.2)
      (count_unique_entities results t) := by
  constructor
  · rw [count_unique_entities,
      ((perm_sortDesc (countOcc (flatEnt results t))).map Prod.snd).sum_eq,
      sum_countOcc, flatEnt, List.length_flatten, List.map_map]
    rfl
  · exact pairwise_sortDesc _

/-! ## Claim C9 -/

theorem saveArtifacts_split (encFail : String → Bool) :
    (pre : List String) → (a : String) → (post : List String) →
    (∀ b ∈ pre, encFail b = false) → encFail a = true →
    saveArtifacts encFail (pre ++ a :: post) = (pre, some SAVE_ERROR_MSG)
  | [], a, post, _, ha => by
    rw [List.nil_append, saveArtifacts, if_pos ha]
  | b :: pre, a, post, hpre, ha => by
    have hb : encFail b = false := hpre b (List.mem_cons_self _ _)
    rw [List.cons_append, saveArtifacts,
      if_neg (by rw [hb]; exact Bool.false_ne_true),
      saveArtifacts_split encFail pre a post
        (fun c hc => hpre c (List.mem_cons_of_mem _ hc)) ha]

/-- C9 (amended): a serialization call that fails to encode raises the
descriptive message and aborts the run at that artifact: artifacts saved
before it remain written, but the remaining artifacts of the run are NOT
attempted (there is no per-artifact isolation in `load_tls_scan_results`). -/
theorem C9_failure_aborts_remaining_artifacts (encFail : String → Bool)
    (pre post : List String) (a : String)
    (hsplit : artifactsInOrder = pre ++ a :: post)
    (hpre : ∀ b ∈ pre, encFail b = false) (ha : encFail a = true) :
    saveArtifacts encFail artifactsInOrder = (pre, some SAVE_ERROR_MSG) := by
  rw [hsplit]
  exact saveArtifacts_split encFail pre a post hpre ha

theorem C9_witness :
    saveArtifacts (fun a => a == "tls_scanner_results.csv") artifactsInOrder =
      (["tls_scanner_results.json", "tls_scanner_attacks.json",
        "tls_scanner_bugs.json", "tls_scanner_vulnerabilities.json"],
       some SAVE_ERROR_MSG) :=
  C9_failure_aborts_remaining_artifacts (fun a => a == "tls_scanner_results.csv")
    ["tls_scanner_results.json", "tls_scanner_attacks.json",
     "tls_scanner_bugs.json", "tls_scanner_vulnerabilities.json"]
    ["tls_scanner_attacks.csv", "tls_scanner_bugs.csv",
     "tls_scanner_vulnerabilities.csv", "tls_scanner_groupped.csv"]
    "tls_scanner_results.csv" (by decide) (by decide) (by decide)

/-- C9 counterexample: when the very first artifact fails to encode, none of
the remaining independent artifacts is attempted or written — contradicting
the claim that they still are. -/
theorem C9_counterexample :
    saveArtifacts (fun a => a == "tls_scanner_results.json") artifactsInOrder =
      ([], some SAVE_ERROR_MSG) ∧
    "tls_scanner_attacks.json" ∉
      (saveArtifacts (fun a => a == "tls_scanner_results.json") artifactsInOrder).1 :=
  ⟨by decide, by decide⟩

/-! ## Claim C8 -/

/-- C8: evaluating the grouped builder on a map where vendor "Acme" has
product "P1" on one host and product "P2" on two hosts: the product entries
come out as P1 (quantity 1) before P2 (quantity 2) — NOT ordered by quantity
descending, because the source's per-product `sorted(...)` call sorts a
one-element `{product: ...}` dict and can never reorder products. -/
theorem C8_products_not_sorted_by_quantity :
    buildGrouped
      [("1.1.1.1", { vendor := "Acme", product := "P1", port := "443",
                     attacks := NamesVal.asList ["Heartbleed"],
                     bugs := NamesVal.asList [], vulnerabilities := [],
                     ip := some "1.1.1.1" }),
       ("1.1.1.2", { vendor := "Acme", product := "P2", port := "443",
                     attacks := NamesVal.asList ["Heartbleed"],
                     bugs := NamesVal.asList [], vulnerabilities := [],
                     ip := some "1.1.1.2" }),
       ("1.1.1.3", { vendor := "Acme", product := "P2", port := "443",
                     attacks := NamesVal.asList ["Heartbleed"],
                     bugs := NamesVal.asList [], vulnerabilities := [],
                     ip := some "1.1.1.3" })] =
      some [("Heartbleed",
        [("Acme", [("P1", (["1.1.1.1:443"], 1)),
                   ("P2", (["1.1.1.2:443", "1.1.1.3:443"], 2))])])] ∧
    ¬ List.Pairwise (fun x y : String × (List String × Nat) => y.2.2 ≤ x.2.2)
        [("P1", (["1.1.1.1:443"], 1)),
         ("P2", (["1.1.1.2:443", "1.1.1.3:443"], 2))] :=
  ⟨by decide, by decide⟩

/-! ## Lemmas about the grouped report builder -/

theorem optMap_isSome {α β : Type} (f : α → Option β) :
    (l : List α) → (∀ a ∈ l, (f a).isSome = true) → (optMap f l).isSome = true
  | [], _ => rfl
  | x :: xs, h => by
    rw [optMap]
    obtain ⟨y, hy⟩ := Option.isSome_iff_exists.mp (h x (List.mem_cons_self _ _))
    obtain ⟨ys, hys⟩ := Option.isSome_iff_exists.mp
      (optMap_isSome f xs (fun a ha => h a (List.mem_cons_of_mem _ ha)))
    rw [hy, hys]
    rfl

/-- Innermost level of the grouped builder: the `"ip:port"` strings of a host
selection succeed when every selected record has its `"ip"` key. -/
theorem optMap_ips (sel : List HostRecord) (hsel : ∀ r ∈ sel, r.ip.isSome = true) :
    optMap hostIpPort sel =
      some (sel.map (fun r => r.ip.getD "" ++ ":" ++ r.port)) := by
  refine optMap_eq_map _ _ _ (fun r hr => ?_)
  obtain ⟨i, hi⟩ := Option.isSome_iff_exists.mp (hsel r hr)
  rw [hostIpPort, hi]
  rfl

/-- Product level of the grouped builder. -/
theorem optMap_products (bv : List HostRecord) (hips : ∀ r ∈ bv, r.ip.isSome = true)
    (prods : List String) :
    optMap (fun pr =>
        (optMap hostIpPort (bv.filter (fun r => r.product == pr))).map
          (fun ips => (pr, (ips, ips.length)))) prods =
      some (prods.map (fun pr =>
        (pr, ((bv.filter (fun r => r.product == pr)).map
                (fun r => r.ip.getD "" ++ ":" ++ r.port),
              (bv.filter (fun r => r.product == pr)).length)))) := by
  refine optMap_eq_map _ _ _ (fun pr hpr => ?_)
  have h1 := optMap_ips (bv.filter (fun r => r.product == pr))
    (fun r hr => hips r (List.mem_filter.mp hr).1)
  exact (congrArg (Option.map (fun ips => (pr, (ips, ips.length)))) h1).trans
    (by rw [Option.map_some', List.length_map])

/-- Vendor level of the grouped builder. -/
theorem optMap_vendors (hl : List HostRecord) (hips : ∀ r ∈ hl, r.ip.isSome = true)
    (vendors : List String) :
    optMap (fun v =>
        (optMap (fun pr =>
            (optMap hostIpPort ((hl.filter (fun r => r.vendor == v)).filter
                (fun r => r.product == pr))).map
              (fun ips => (pr, (ips, ips.length))))
          (firstDedup ((hl.filter (fun r => r.vendor == v)).map
            (fun r => r.product)))).map (fun l => (v, l))) vendors =
      some (vendors.map (fun v =>
        (v, (firstDedup ((hl.filter (fun r => r.vendor == v)).map
              (fun r => r.product))).map
          (fun pr =>
            (pr, (((hl.filter (fun r => r.vendor == v)).filter
                    (fun r => r.product == pr)).map
                    (fun r => r.ip.getD "" ++ ":" ++ r.port),
                  ((hl.filter (fun r => r.vendor == v)).filter
                    (fun r => r.product == pr)).length)))))) := by
  refine optMap_eq_map _ _ _ (fun v hv => ?_)
  have h1 := optMap_products (hl.filter (fun r => r.vendor == v))
    (fun r hr => hips r (List.mem_filter.mp hr).1)
    (firstDedup ((hl.filter (fun r => r.vendor == v)).map (fun r => r.product)))
  exact (congrArg (Option.map (fun l => (v, l))) h1).trans (Option.map_some' _ _)

/-- The grouped builder, written out, when every record has its `"ip"` key. -/
theorem buildGrouped_eq (results : List (String × HostRecord))
    (hip : ∀ p ∈ results, p.2.ip.isSome = true) :
    buildGrouped results = some
      ((sortDesc (countOcc (((results.map (fun p => p.2)).map
          (fun r => r.attacks.names)).flatten))).map
        (fun aq =>
          (aq.1,
            (firstDedup ((((results.map (fun p => p.2)).filter
                (fun r => r.attacks.names.contains aq.1)).map (fun r => r.vendor)))).map
              (fun v =>
                (v,
                  (firstDedup (((((results.map (fun p => p.2)).filter
                      (fun r => r.attacks.names.contains aq.1)).filter
                      (fun r => r.vendor == v)).map (fun r => r.product)))).map
                    (fun pr =>
                      (pr,
                        ((((((results.map (fun p => p.2)).filter
                            (fun r => r.attacks.names.contains aq.1)).filter
                            (fun r => r.vendor == v)).filter
                            (fun r => r.product == pr)).map
                            (fun r => r.ip.getD "" ++ ":" ++ r.port)),
                         ((((results.map (fun p => p.2)).filter
                            (fun r => r.attacks.names.contains aq.1)).filter
                            (fun r => r.vendor == v)).filter
                            (fun r => r.product == pr)).length)))))))) := by
  refine optMap_eq_map _ _ _ (fun aq haq => ?_)
  have hips : ∀ r ∈ (results.map (fun p => p.2)).filter
      (fun r => r.attacks.names.contains aq.1), r.ip.isSome = true := by
    intro r hr
    obtain ⟨p, hp, hpe⟩ := List.mem_map.mp (List.mem_filter.mp hr).1
    exact hpe ▸ hip p hp
  have h1 := optMap_vendors ((results.map (fun p => p.2)).filter
      (fun r => r.attacks.names.contains aq.1)) hips
    (firstDedup (((results.map (fun p => p.2)).filter
      (fun r => r.attacks.names.contains aq.1)).map (fun r => r.vendor)))
  exact (congrArg (Option.map (fun l => (aq.1, l))) h1).trans (Option.map_some' _ _)

/-- Snd-component sums of the vendor level collapse to the host count. -/
theorem grouped_sum (hl : List HostRecord) :
    ((firstDedup (hl.map (fun r => r.vendor))).map
      (fun v => vendorTotalQty
        ((firstDedup ((hl.filter (fun r => r.vendor == v)).map
            (fun r => r.product))).map
          (fun pr =>
            (pr, (((hl.filter (fun r => r.vendor == v)).filter
                    (fun r => r.product == pr)).map
                    (fun r => r.ip.getD "" ++ ":" ++ r.port),
                  ((hl.filter (fun r => r.vendor == v)).filter
                    (fun r => r.product == pr)).length)))))).sum = hl.length := by
  have hpoint : ∀ v ∈ firstDedup (hl.map (fun r => r.vendor)),
      vendorTotalQty
        ((firstDedup ((hl.filter (fun r => r.vendor == v)).map
            (fun r => r.product))).map
          (fun pr =>
            (pr, (((hl.filter (fun r => r.vendor == v)).filter
                    (fun r => r.product == pr)).map
                    (fun r => r.ip.getD "" ++ ":" ++ r.port),
                  ((hl.filter (fun r => r.vendor == v)).filter
                    (fun r => r.product == pr)).length)))) =
        (hl.filter (fun r => r.vendor == v)).length := by
    intro v _
    rw [vendorTotalQty, List.map_map]
    exact sum_filter_firstDedup (fun r => r.product) (hl.filter (fun r => r.vendor == v))
  rw [List.map_congr_left hpoint]
  exact sum_filter_firstDedup (fun r => r.vendor) hl

/-- With duplicate-free per-host attack sets, the flattened count of an
attack is the number of hosts having it. -/
theorem count_flat_eq_filter_length (hl : List HostRecord)
    (hnd : ∀ r ∈ hl, r.attacks.names.Nodup) (a : String) :
    ((hl.map (fun r => r.attacks.names)).flatten).count a =
      (hl.filter (fun r => r.attacks.names.contains a)).length := by
  rw [List.count_flatten, List.map_map]
  have hmc : List.map (List.count a ∘ fun r => r.attacks.names) hl =
      List.map (fun r => if r.attacks.names.contains a then 1 else 0) hl := by
    refine List.map_congr_left (fun r hr => ?_)
    by_cases hm : a ∈ r.attacks.names
    · rw [if_pos (List.elem_iff.mpr hm)]
      exact List.count_eq_one_of_mem (hnd r hr) hm
    · rw [if_neg (fun hc => hm (List.elem_iff.mp hc))]
      exact List.count_eq_zero_of_not_mem hm
  rw [hmc]
  exact sum_indicator (fun r => r.attacks.names.contains a) hl

/-- The grouped builder succeeds on a map whose records all have an ip. -/
theorem buildGrouped_isSome_of_ips (results : List (String × HostRecord))
    (hip : ∀ p ∈ results, p.2.ip.isSome = true) :
    (buildGrouped results).isSome = true := by
  rw [buildGrouped_eq results hip]
  rfl

/-- The grouped builder fails (raises in the source) whenever some record
lacking its `"ip"` key has at least one attack. -/
theorem buildGrouped_none_of_missing_ip (results : List (String × HostRecord))
    (r0 : HostRecord) (hr : r0 ∈ results.map (fun p => p.2)) (hipn : r0.ip = none)
    (a0 : String) (ha0 : a0 ∈ r0.attacks.names) :
    buildGrouped results = none := by
  have hflatmem : a0 ∈ ((results.map (fun p => p.2)).map
      (fun r => r.attacks.names)).flatten :=
    List.mem_flatten.mpr ⟨r0.attacks.names, List.mem_map.mpr ⟨r0, hr, rfl⟩, ha0⟩
  have htab : (a0, (((results.map (fun p => p.2)).map
        (fun r => r.attacks.names)).flatten).count a0) ∈
      sortDesc (countOcc (((results.map (fun p => p.2)).map
        (fun r => r.attacks.names)).flatten)) :=
    (perm_sortDesc _).mem_iff.mpr (mem_countOcc_iff.mpr ⟨hflatmem, rfl⟩)
  have hw : r0 ∈ (results.map (fun p => p.2)).filter
      (fun r => r.attacks.names.contains a0) :=
    List.mem_filter.mpr ⟨hr, List.elem_iff.mpr ha0⟩
  have hv : r0.vendor ∈ firstDedup (((results.map (fun p => p.2)).filter
      (fun r => r.attacks.names.contains a0)).map (fun r => r.vendor)) :=
    (mem_firstDedup _ _).mpr (List.mem_map.mpr ⟨r0, hw, rfl⟩)
  have hbv : r0 ∈ ((results.map (fun p => p.2)).filter
      (fun r => r.attacks.names.contains a0)).filter
      (fun r => r.vendor == r0.vendor) :=
    List.mem_filter.mpr ⟨hw, beq_self_eq_true _⟩
  have hpr : r0.product ∈ firstDedup ((((results.map (fun p => p.2)).filter
      (fun r => r.attacks.names.contains a0)).filter
      (fun r => r.vendor == r0.vendor)).map (fun r => r.product)) :=
    (mem_firstDedup _ _).mpr (List.mem_map.mpr ⟨r0, hbv, rfl⟩)
  have hsel : r0 ∈ (((results.map (fun p => p.2)).filter
      (fun r => r.attacks.names.contains a0)).filter
      (fun r => r.vendor == r0.vendor)).filter
      (fun r => r.product == r0.product) :=
    List.mem_filter.mpr ⟨hbv, beq_self_eq_true _⟩
  have h1 : optMap hostIpPort ((((results.map (fun p => p.2)).filter
      (fun r => r.attacks.names.contains a0)).filter
      (fun r => r.vendor == r0.vendor)).filter
      (fun r => r.product == r0.product)) = none :=
    optMap_eq_none _ _ hsel (by rw [hostIpPort, hipn]; rfl)
  have h2 : optMap (fun pr =>
      (optMap hostIpPort ((((results.map (fun p => p.2)).filter
          (fun r => r.attacks.names.contains a0)).filter
          (fun r => r.vendor == r0.vendor)).filter
          (fun r => r.product == pr))).map
        (fun ips => (pr, (ips, ips.length))))
      (firstDedup ((((results.map (fun p => p.2)).filter
        (fun r => r.attacks.names.contains a0)).filter
        (fun r => r.vendor == r0.vendor)).map (fun r => r.product))) = none :=
    optMap_eq_none _ _ hpr (by rw [h1]; rfl)
  have h3 : optMap (fun v =>
      (optMap (fun pr =>
          (optMap hostIpPort ((((results.map (fun p => p.2)).filter
              (fun r => r.attacks.names.contains a0)).filter
              (fun r => r.vendor == v)).filter
              (fun r => r.product == pr))).map
            (fun ips => (pr, (ips, ips.length))))
        (firstDedup ((((results.map (fun p => p.2)).filter
          (fun r => r.attacks.names.contains a0)).filter
          (fun r => r.vendor == v)).map (fun r => r.product)))).map
        (fun l => (v, l)))
      (firstDedup (((results.map (fun p => p.2)).filter
        (fun r => r.attacks.names.contains a0)).map (fun r => r.vendor))) = none :=
    optMap_eq_none _ _ hv (by rw [h2]; rfl)
  refine optMap_eq_none _ _ htab ?_
  simp only []
  rw [h3]
  rfl

/-! ## Claim C5 -/

/-- C5: for every result map (per-host attack sets duplicate-free, as dict
keys are, and every record carrying its ip as at serialization time) and
every attack in the grouped report, the sum over all vendors of the
synthesized vendor-total quantity equals the attack frequency table's count
for that attack: each host having the attack is attributed to exactly one
(vendor, product, ip:port) triple. -/
theorem C5_vendor_totals_sum_to_frequency (results : List (String × HostRecord))
    (hnd : ∀ p ∈ results, p.2.attacks.names.Nodup)
    (hip : ∀ p ∈ results, p.2.ip.isSome = true) :
    ∃ g, buildGrouped results = some g ∧
      ∀ av ∈ g,
        (av.2.map (fun vp => vendorTotalQty vp.2)).sum =
          (flatEnt results EntType.attacks).count av.1 ∧
        lookupA (count_unique_entities results EntType.attacks) av.1 =
          some ((flatEnt results EntType.attacks).count av.1) := by
  refine ⟨_, buildGrouped_eq results hip, ?_⟩
  intro av hav
  obtain ⟨aq, haq, havq⟩ := List.mem_map.mp hav
  have hhl : ∀ r ∈ results.map (fun p => p.2), r.attacks.names.Nodup := by
    intro r hr
    obtain ⟨p, hp, hpe⟩ := List.mem_map.mp hr
    exact hpe ▸ hnd p hp
  have hflat : flatEnt results EntType.attacks =
      ((results.map (fun p => p.2)).map (fun r => r.attacks.names)).flatten := by
    rw [flatEnt, List.map_map]
    rfl
  constructor
  · rw [← havq, hflat]
    simp only []
    rw [List.map_map]
    exact (grouped_sum ((results.map (fun p => p.2)).filter
        (fun r => r.attacks.names.contains aq.1))).trans
      (count_flat_eq_filter_length (results.map (fun p => p.2)) hhl aq.1).symm
  · have hkeys : ((sortDesc (countOcc (((results.map (fun p => p.2)).map
        (fun r => r.attacks.names)).flatten))).map Prod.fst).Nodup := by
      refine ((perm_sortDesc _).map Prod.fst).nodup_iff.mpr ?_
      rw [keys_countOcc]
      exact nodup_firstDedup _
    obtain ⟨hmemflat, hcnt⟩ := mem_countOcc_iff.mp ((perm_sortDesc _).mem_iff.mp haq)
    have hlk : lookupA (sortDesc (countOcc (((results.map (fun p => p.2)).map
        (fun r => r.attacks.names)).flatten))) aq.1 = some aq.2 := by
      refine lookupA_of_mem_nodup hkeys ?_
      rw [Prod.mk.eta]
      exact haq
    rw [← havq]
    simp only []
    rw [count_unique_entities, hflat, hlk]
    exact congrArg some hcnt

theorem C5_witness :
    (([("Acme", [("A", (["8.8.8.8:443"], 1)), ("B", (["8.8.4.4:443"], 1))])] :
        List (String × List (String × (List String × Nat)))).map
      (fun vp => vendorTotalQty vp.2)).sum =
      (flatEnt
        [("8.8.8.8", { vendor := "Acme", product := "A", port := "443",
                       attacks := NamesVal.asDict ["Heartbleed"],
                       bugs := NamesVal.asDict [], vulnerabilities := [],
                       ip := some "8.8.8.8" }),
         ("8.8.4.4", { vendor := "Acme", product := "B", port := "443",
                       attacks := NamesVal.asDict ["Heartbleed"],
                       bugs := NamesVal.asDict [], vulnerabilities := [],
                       ip := some "8.8.4.4" })] EntType.attacks).count "Heartbleed" := by
  obtain ⟨g, hg, hprop⟩ := C5_vendor_totals_sum_to_frequency
    [("8.8.8.8", { vendor := "Acme", product := "A", port := "443",
                   attacks := NamesVal.asDict ["Heartbleed"],
                   bugs := NamesVal.asDict [], vulnerabilities := [],
                   ip := some "8.8.8.8" }),
     ("8.8.4.4", { vendor := "Acme", product := "B", port := "443",
                   attacks := NamesVal.asDict ["Heartbleed"],
                   bugs := NamesVal.asDict [], vulnerabilities := [],
                   ip := some "8.8.4.4" })] (by decide) (by decide)
  have hbuild : buildGrouped
      [("8.8.8.8", { vendor := "Acme", product := "A", port := "443",
                     attacks := NamesVal.asDict ["Heartbleed"],
                     bugs := NamesVal.asDict [], vulnerabilities := [],
                     ip := some "8.8.8.8" }),
       ("8.8.4.4", { vendor := "Acme", product := "B", port := "443",
                     attacks := NamesVal.asDict ["Heartbleed"],
                     bugs := NamesVal.asDict [], vulnerabilities := [],
                     ip := some "8.8.4.4" })] =
      some [("Heartbleed",
        [("Acme", [("A", (["8.8.8.8:443"], 1)), ("B", (["8.8.4.4:443"], 1))])])] := by
    decide
  have hgeq : g = [("Heartbleed",
      [("Acme", [("A", (["8.8.8.8:443"], 1)), ("B", (["8.8.4.4:443"], 1))])])] :=
    Option.some.inj (hg.symm.trans hbuild)
  have hmem : ("Heartbleed",
      [("Acme", [("A", (["8.8.8.8:443"], 1)), ("B", (["8.8.4.4:443"], 1))])]) ∈ g := by
    rw [hgeq]
    exact List.mem_singleton.mpr rfl
  exact (hprop _ hmem).1

/-! ## Claim C10 -/

/-- C10: `save_results_csv` mutates every record of the map it is given —
inserting the record's key under `"ip"` and replacing the attacks/bugs dicts
with the lists of their names — and the grouped-CSV serializer (which
`load_tls_scan_results` runs after it, on the same map) needs exactly that
inserted `"ip"` key: on the mutated map it succeeds, while on the
pre-mutation map (no `"ip"` keys) it fails as soon as any host has an
attack. -/
theorem C10_csv_mutation_enables_grouped (m : List (String × HostRecord))
    (hdict : ∀ p ∈ m, p.2.attacks.pyKeys = some p.2.attacks.names ∧
                      p.2.bugs.pyKeys = some p.2.bugs.names)
    (hip0 : ∀ p ∈ m, p.2.ip = none)
    (hex : ∃ p ∈ m, p.2.attacks.names ≠ []) :
    save_results_csv_mutate m = some (m.map (fun p =>
      (p.1, { p.2 with attacks := NamesVal.asList p.2.attacks.names,
                       bugs := NamesVal.asList p.2.bugs.names,
                       ip := some p.1 }))) ∧
    (buildGrouped (m.map (fun p =>
      (p.1, { p.2 with attacks := NamesVal.asList p.2.attacks.names,
                       bugs := NamesVal.asList p.2.bugs.names,
                       ip := some p.1 })))).isSome = true ∧
    buildGrouped m = none := by
  refine ⟨?_, ?_, ?_⟩
  · rw [save_results_csv_mutate]
    refine optMap_eq_map _ _ _ (fun p hp => ?_)
    rcases hdict p hp with ⟨ha, hb⟩
    rw [ha, hb]
  · refine buildGrouped_isSome_of_ips _ (fun q hq => ?_)
    obtain ⟨p, hp, hpe⟩ := List.mem_map.mp hq
    rw [← hpe]
    rfl
  · obtain ⟨p0, hp0, hne⟩ := hex
    obtain ⟨a0, ha0⟩ := List.exists_mem_of_ne_nil _ hne
    exact buildGrouped_none_of_missing_ip m p0.2
      (List.mem_map.mpr ⟨p0, hp0, rfl⟩) (hip0 p0 hp0) a0 ha0

theorem C10_witness :
    save_results_csv_mutate
      [("2.2.2.2", { vendor := "V", product := "P", port := "443",
                     attacks := NamesVal.asDict ["DROWN"],
                     bugs := NamesVal.asDict [], vulnerabilities := [],
                     ip := none })] =
      some [("2.2.2.2", { vendor := "V", product := "P", port := "443",
                          attacks := NamesVal.asList ["DROWN"],
                          bugs := NamesVal.asList [], vulnerabilities := [],
                          ip := some "2.2.2.2" })] ∧
    buildGrouped
      [("2.2.2.2", { vendor := "V", product := "P", port := "443",
                     attacks := NamesVal.asDict ["DROWN"],
                     bugs := NamesVal.asDict [], vulnerabilities := [],
                     ip := none })] = none := by
  have h := C10_csv_mutation_enables_grouped
    [("2.2.2.2", { vendor := "V", product := "P", port := "443",
                   attacks := NamesVal.asDict ["DROWN"],
                   bugs := NamesVal.asDict [], vulnerabilities := [],
                   ip := none })] (by decide) (by decide) (by decide)
  exact ⟨h.1, h.2.2⟩

end Grinder
